import Mathlib

/-!
# Verification of `show/interfaces/__init__.py` (sonic-utilities)

A shallow embedding of the interface-display logic of the repository:
the breakout summary (`breakout`), the breakout current-mode query
(`currrent_mode`), the multi-namespace MPLS listing (`mpls`) and the
alias-to-name conversion helper (`try_convert_interfacename_from_alias`),
together with theorems checking the natural-language specification
against this embedding.

Python dictionaries are embedded as insertion-ordered association lists
(`List (String × β)`); Python's `natsorted` (the `natsort` library's
default, stable, alphanumeric-aware ascending sort) is embedded as a
stable insertion sort over a chunk-based comparator.
-/

namespace SonicShow

/-! ## Natural (alphanumeric-aware) ordering, the model of `natsorted` -/

/-- Comparison of natural numbers, producing an `Ordering`. -/
def cmpNat (m n : Nat) : Ordering :=
  if m < n then Ordering.lt else if n < m then Ordering.gt else Ordering.eq

/-- Comparison of characters by code point. -/
def cmpChar (a b : Char) : Ordering :=
  cmpNat a.toNat b.toNat

/-- Lexicographic comparison of lists, given an element comparator.
A strict prefix compares less than the longer list. -/
def lexCmp (f : α → α → Ordering) : List α → List α → Ordering
  | [], [] => Ordering.eq
  | [], _ :: _ => Ordering.lt
  | _ :: _, [] => Ordering.gt
  | a :: as, b :: bs =>
    match f a b with
    | Ordering.eq => lexCmp f as bs
    | o => o

/-- One chunk of a natural-sort key: a maximal run of decimal digits
(kept as the digit characters) or a maximal run of non-digits. -/
inductive NatChunk where
  | num : List Char → NatChunk
  | str : List Char → NatChunk
deriving DecidableEq, Repr

/-- Value of a digit run, read in base 10. -/
def digitsToNat (ds : List Char) : Nat :=
  ds.foldl (fun a c => a * 10 + (c.toNat - 48)) 0

/-- Split a character list into alternating digit / non-digit chunks
(the decomposition the `natsort` library performs on each string). -/
def natKeyAux : List Char → List NatChunk
  | [] => []
  | c :: cs =>
    let rest := natKeyAux cs
    if c.isDigit then
      match rest with
      | NatChunk.num ds :: r => NatChunk.num (c :: ds) :: r
      | _ => NatChunk.num [c] :: rest
    else
      match rest with
      | NatChunk.str s :: r => NatChunk.str (c :: s) :: r
      | _ => NatChunk.str [c] :: rest

/-- Natural-sort key of a string. -/
def natKey (s : String) : List NatChunk :=
  natKeyAux s.toList

/-- Compare two chunks: digit runs numerically, text runs by code point;
a digit run sorts before a text run (the `natsort` convention). -/
def cmpChunk : NatChunk → NatChunk → Ordering
  | NatChunk.num ds, NatChunk.num es => cmpNat (digitsToNat ds) (digitsToNat es)
  | NatChunk.str s, NatChunk.str t => lexCmp cmpChar s t
  | NatChunk.num _, NatChunk.str _ => Ordering.lt
  | NatChunk.str _, NatChunk.num _ => Ordering.gt

/-- `natLe a b` holds when `a` does not come after `b` in natural order. -/
def natLe (a b : String) : Bool :=
  decide (lexCmp cmpChunk (natKey a) (natKey b) ≠ Ordering.gt)

/-- Insert a string into a (naturally sorted) list, before the first
element it is `natLe`-below; equal keys keep the incoming element first,
which makes the fold below a stable sort, as Python's `natsorted` is. -/
def insertNat (x : String) : List String → List String
  | [] => [x]
  | y :: ys => if natLe x y then x :: y :: ys else y :: insertNat x ys

/-- The model of `natsorted`: stable insertion sort by natural order. -/
def natsorted (l : List String) : List String :=
  l.foldr insertNat []

/-! ### Order lemmas for the `natsorted` model -/

theorem cmpNat_swap (m n : Nat) : cmpNat n m = (cmpNat m n).swap := by
  unfold cmpNat
  rcases Nat.lt_trichotomy m n with h | h | h
  · simp [h, Nat.lt_asymm h, Ordering.swap]
  · simp [h, Nat.lt_irrefl, Ordering.swap]
  · simp [h, Nat.lt_asymm h, Ordering.swap]

theorem cmpChar_swap (a b : Char) : cmpChar b a = (cmpChar a b).swap :=
  cmpNat_swap a.toNat b.toNat

theorem lexCmp_swap (f : α → α → Ordering) (hf : ∀ a b, f b a = (f a b).swap) :
    ∀ x y, lexCmp f y x = (lexCmp f x y).swap := by
  intro x
  induction x with
  | nil => intro y; cases y <;> rfl
  | cons a as ih =>
    intro y
    cases y with
    | nil => rfl
    | cons b bs =>
      show lexCmp f (b :: bs) (a :: as) = (lexCmp f (a :: as) (b :: bs)).swap
      unfold lexCmp
      rw [hf a b]
      cases h : f a b <;> simp [Ordering.swap, ih bs]

theorem cmpChunk_swap (a b : NatChunk) : cmpChunk b a = (cmpChunk a b).swap := by
  cases a with
  | num ds =>
    cases b with
    | num es => exact cmpNat_swap (digitsToNat ds) (digitsToNat es)
    | str t => rfl
  | str s =>
    cases b with
    | num es => rfl
    | str t => exact lexCmp_swap cmpChar cmpChar_swap s t

/-- `natLe` is total: any two strings are comparable. -/
theorem natLe_total (a b : String) : natLe a b = true ∨ natLe b a = true := by
  by_cases h : lexCmp cmpChunk (natKey a) (natKey b) = Ordering.gt
  · right
    have hs : lexCmp cmpChunk (natKey b) (natKey a)
        = (lexCmp cmpChunk (natKey a) (natKey b)).swap :=
      lexCmp_swap cmpChunk cmpChunk_swap (natKey a) (natKey b)
    rw [h] at hs
    simp [natLe, hs, Ordering.swap]
  · left
    simp [natLe, h]

/-- Membership is preserved by `insertNat`. -/
theorem mem_insertNat (x a : String) (l : List String) :
    a ∈ insertNat x l ↔ a = x ∨ a ∈ l := by
  induction l with
  | nil => simp [insertNat]
  | cons y ys ih =>
    by_cases h : natLe x y = true
    · simp [insertNat, h]
    · have he : insertNat x (y :: ys) = y :: insertNat x ys := by
        simp [insertNat, h]
      rw [he]
      simp only [List.mem_cons, ih]
      tauto

/-- Membership is preserved by `natsorted`. -/
theorem mem_natsorted (a : String) (l : List String) :
    a ∈ natsorted l ↔ a ∈ l := by
  induction l with
  | nil => simp [natsorted]
  | cons y ys ih =>
    show a ∈ insertNat y (natsorted ys) ↔ _
    rw [mem_insertNat]
    simp [ih]

/-- Adjacent elements of `insertNat x l` are in natural order whenever
those of `l` are. -/
theorem chain'_insertNat (x : String) (l : List String)
    (h : List.Chain' (fun a b => natLe a b = true) l) :
    List.Chain' (fun a b => natLe a b = true) (insertNat x l) := by
  induction l with
  | nil => simp [insertNat]
  | cons y ys ih =>
    by_cases hxy : natLe x y = true
    · have he : insertNat x (y :: ys) = x :: y :: ys := by
        simp [insertNat, hxy]
      rw [he]
      exact List.chain'_cons.mpr ⟨hxy, h⟩
    · have hyx : natLe y x = true := (natLe_total x y).resolve_left hxy
      have he : insertNat x (y :: ys) = y :: insertNat x ys := by
        simp [insertNat, hxy]
      rw [he]
      have hys : List.Chain' (fun a b => natLe a b = true) ys := List.Chain'.tail h
      have hins := ih hys
      cases hc : insertNat x ys with
      | nil => simp
      | cons z zs =>
        rw [hc] at hins
        refine List.chain'_cons.mpr ⟨?_, hins⟩
        -- the head of `insertNat x ys` is `x` itself or the old head of `ys`
        cases ys with
        | nil =>
          have hx : x = z := by
            simp [insertNat] at hc
            exact hc.1
          rw [← hx]
          exact hyx
        | cons w ws =>
          by_cases hxw : natLe x w = true
          · have hx : x = z := by
              simp [insertNat, hxw] at hc
              exact hc.1
            rw [← hx]
            exact hyx
          · have hw : w = z := by
              simp [insertNat, hxw] at hc
              exact hc.1
            rw [← hw]
            exact (List.chain'_cons.mp h).1

/-- The output of the `natsorted` model is in ascending natural order
(each element is `natLe`-below the next). -/
theorem chain'_natsorted (l : List String) :
    List.Chain' (fun a b => natLe a b = true) (natsorted l) := by
  induction l with
  | nil => simp [natsorted]
  | cons y ys ih => exact chain'_insertNat y (natsorted ys) ih

/-! ## Python dictionaries as insertion-ordered association lists -/

/-- Lookup in an insertion-ordered association list (`d[k]` / `k in d`).
Keys of a Python dict are unique; with duplicates the first entry wins. -/
def dlookup (d : List (String × β)) (k : String) : Option β :=
  match d with
  | [] => none
  | kv :: rest => if kv.1 = k then some kv.2 else dlookup rest k

/-- `k in d` for a Python dict. -/
def hasKey (d : List (String × β)) (k : String) : Bool :=
  (dlookup d k).isSome

/-- Python `d[k] = v`: replace the value in place if the key exists,
otherwise append the new pair at the end. -/
def setItem (d : List (String × String)) (k v : String) : List (String × String) :=
  if hasKey d k then
    d.map (fun kv => if kv.1 = k then (k, v) else kv)
  else
    d ++ [(k, v)]

/-- Python `base.update(upd)`: existing keys keep their position but take
the updating dict's value; keys only in `upd` are appended in order. -/
def dictUpdate (base upd : List (String × String)) : List (String × String) :=
  base.map (fun kv =>
    match dlookup upd kv.1 with
    | some v => (kv.1, v)
    | none => kv)
  ++ upd.filter (fun kv => !(hasKey base kv.1))

/-- Python `",".join(l)`. -/
def joinComma : List String → String
  | [] => ""
  | [x] => x
  | x :: xs => x ++ "," ++ joinComma xs

/-! ## The `breakout` summary command

Embedding of `breakout` (src/show/interfaces/__init__.py:178-236), the
no-subcommand body that builds the JSON breakout summary.  File loading
(`readJsonFile`), the Config DB connection and `get_child_ports` (from
the external `portconfig` module) are the data sources; they enter the
model as parameters:

* `platform_dict` — the `"interfaces"` mapping of the platform port
  config file (parent port → capability attribute dict);
* `hwsku_dict` — the `"interfaces"` mapping of `hwsku.json`;
* `cur_brkout_tbl` — the persisted `BREAKOUT_CFG` table; each row of
  that table holds exactly the field `brkout_mode`, so it is embedded
  directly as parent port → mode string
  (`cur_brkout_tbl[port_name]["brkout_mode"]`);
* `child_ports` — `get_child_ports(port, mode, platform_file)`, as the
  list of keys of the returned child-port dict;
* `port_speed` — `config_db.get_entry('PORT', port).get('speed')`, the
  live operational speed in megabits (`None` when absent; the DB stores
  it as a decimal string, read by Python's `int`).
-/

/-- Failure modes of the `breakout` body: `abort` for the explicit
`click.Abort()` paths, `keyError` for an uncaught Python `KeyError`. -/
inductive BrkoutErr where
  | abort : String → BrkoutErr
  | keyError : String → BrkoutErr
deriving DecidableEq, Repr

/-- `str(int(speed)//1000)+'G'` (src line 228): whole-gigabit integer
quotient of the raw megabit speed, suffixed with `G`. -/
def formatSpeedG (speed : Nat) : String :=
  toString (speed / 1000) ++ "G"

/-- The child-port loop (src lines 223-229): walk the natsorted child
ports; a child whose live speed is present contributes its name and its
formatted speed; a child with no speed is skipped in both lists. -/
def childLists (ports : List String) (port_speed : String → Option Nat) :
    List String × List String :=
  match ports with
  | [] => ([], [])
  | p :: ps =>
    let rest := childLists ps port_speed
    match port_speed p with
    | some s => (p :: rest.1, formatSpeedG s :: rest.2)
    | none => rest

/-- The per-parent-port body of the `for port_name in platform_dict`
loop (src lines 205-232), as a transformation of one
`(port_name, entry)` pair of `platform_dict`. -/
def processPort (hwsku_dict : List (String × List (String × String)))
    (cur_brkout_tbl : List (String × String))
    (child_ports : String → String → List String)
    (port_speed : String → Option Nat)
    (pair : String × List (String × String)) :
    Except BrkoutErr (String × List (String × String)) :=
  match dlookup cur_brkout_tbl pair.1 with
  | none => Except.ok pair
  | some cur_brkout_mode =>
    match dlookup hwsku_dict pair.1 with
    | none => Except.error (BrkoutErr.keyError pair.1)
    | some sku =>
      let e1 := dictUpdate pair.2 sku
      let e2 := setItem e1 "Current Breakout Mode" cur_brkout_mode
      let children := child_ports pair.1 cur_brkout_mode
      if children.isEmpty then
        Except.error (BrkoutErr.abort "Cannot find ports from platform file")
      else
        let cs := natsorted children
        let pairLists := childLists cs port_speed
        let e3 := setItem e2 "child ports" (joinComma pairLists.1)
        let e4 := setItem e3 "child port speeds" (joinComma pairLists.2)
        Except.ok (pair.1, e4)

/-- The whole `for port_name in platform_dict` loop: every pair of
`platform_dict` is processed in order (the dict is mutated in place, so
ports skipped by the `BREAKOUT_CFG` check keep their original entry);
the first raised error aborts the loop. -/
def processPorts (hwsku_dict : List (String × List (String × String)))
    (cur_brkout_tbl : List (String × String))
    (child_ports : String → String → List String)
    (port_speed : String → Option Nat) :
    List (String × List (String × String)) →
    Except BrkoutErr (List (String × List (String × String)))
  | [] => Except.ok []
  | p :: rest =>
    match processPort hwsku_dict cur_brkout_tbl child_ports port_speed p with
    | Except.error e => Except.error e
    | Except.ok p' =>
      match processPorts hwsku_dict cur_brkout_tbl child_ports port_speed rest with
      | Except.error e => Except.error e
      | Except.ok rest' => Except.ok (p' :: rest')

/-- `OrderedDict((k, d[k]) for k in natsorted(list(d.keys())))`
(src line 235). -/
def natsortedDict (d : List (String × List (String × String))) :
    List (String × List (String × String)) :=
  (natsorted (d.map (fun kv => kv.1))).map (fun k => (k, (dlookup d k).getD []))

/-- The `breakout` command body (src lines 193-236): abort when either
capability document is empty, then process every platform port and emit
the natsorted result. -/
def breakout (platform_dict hwsku_dict : List (String × List (String × String)))
    (cur_brkout_tbl : List (String × String))
    (child_ports : String → String → List String)
    (port_speed : String → Option Nat) :
    Except BrkoutErr (List (String × List (String × String))) :=
  if platform_dict.isEmpty || hwsku_dict.isEmpty then
    Except.error (BrkoutErr.abort "Can not load port config")
  else
    match processPorts hwsku_dict cur_brkout_tbl child_ports port_speed platform_dict with
    | Except.error e => Except.error e
    | Except.ok pd => Except.ok (natsortedDict pd)

/-! ## Command outcomes

A click command body can end in three ways relevant here: fall off the
end normally (process exit status 0), `print`/`click.echo` an error and
`return` (still exit status 0), or call `ctx.fail(...)`, which raises a
`UsageError` (exit status 2). -/

/-- Outcome of a command body. -/
inductive CmdResult (α : Type) where
  | ok : α → CmdResult α
  | earlyReturn : String → CmdResult α
  | usageFail : String → CmdResult α
deriving DecidableEq, Repr

/-- Process exit status of a command outcome: a normal return (with or
without a printed message) exits 0, `ctx.fail` exits 2. -/
def exitCode : CmdResult α → Nat
  | CmdResult.ok _ => 0
  | CmdResult.earlyReturn _ => 0
  | CmdResult.usageFail _ => 2

/-! ## The `breakout current-mode` subcommand

Embedding of `currrent_mode` (src lines 239-269; the misspelling is the
source's).  `cur_brkout_tbl` is the `BREAKOUT_CFG` table as in
`breakout`. -/

/-- The `currrent_mode` body: with an interface argument, one row with
its mode, or the sentinel `"Not Available"` when the interface has no
`BREAKOUT_CFG` entry; without one, a natsorted row per table entry. -/
def currrent_mode (cur_brkout_tbl : List (String × String))
    (interface : Option String) : CmdResult (List (List String)) :=
  match interface with
  | some intf =>
    match dlookup cur_brkout_tbl intf with
    | some mode => CmdResult.ok [[intf, mode]]
    | none => CmdResult.ok [[intf, "Not Available"]]
  | none =>
    CmdResult.ok ((natsorted (cur_brkout_tbl.map (fun kv => kv.1))).map
      (fun name => [name, (dlookup cur_brkout_tbl name).getD ""]))

/-! ## Naming mode and alias conversion -/

/-- The process-wide interface naming mode
(`clicommon.get_interface_naming_mode()`). -/
inductive NamingMode where
  | native : NamingMode
  | alias : NamingMode
deriving DecidableEq, Repr

/-- Modelled from the spec: `InterfaceAliasConverter.alias_to_name`
lives in `utilities_common.cli`, outside the sources given here.  Spec
§4.1: the converter is built from a port-metadata table mapping
canonical name → alias (a port lacking an alias uses its own name), and
the source's own TODO comment (src lines 43-44) records that the current
converter returns the queried alias unchanged when no port matches it.
`port_tab` is that name → alias table. -/
def alias_to_name (port_tab : List (String × String)) (a : String) : String :=
  match port_tab.find? (fun kv => kv.2 = a) with
  | some kv => kv.1
  | none => a

/-- Modelled from the spec: `InterfaceAliasConverter.name_to_alias`
(spec §4.1), the reverse direction: the alias recorded for the name, or
the name itself when it has no entry. -/
def name_to_alias (port_tab : List (String × String)) (n : String) : String :=
  match dlookup port_tab n with
  | some a => a
  | none => n

/-- `try_convert_interfacename_from_alias` (src lines 37-48): in alias
mode, convert through the alias table and `ctx.fail` when the converter
hands the alias back unchanged; in native mode, the identity. -/
def try_convert_interfacename_from_alias (mode : NamingMode)
    (port_tab : List (String × String)) (interfacename : String) :
    Except String String :=
  match mode with
  | NamingMode.native => Except.ok interfacename
  | NamingMode.alias =>
    let converted := alias_to_name port_tab interfacename
    if converted = interfacename then
      Except.error ("cannot find interface name for alias " ++ interfacename)
    else
      Except.ok converted

/-! ## The `mpls` command

Embedding of `mpls` (src lines 331-411).  The per-namespace APPL_DB
handles are the data sources; a namespace enters the model as:

* `keys` — `appl_db.keys(appl_db.APPL_DB, "INTF_TABLE:*")` (every key
  matches the pattern, so it starts with `"INTF_TABLE:"` and contains a
  colon — token 1 of the split always exists);
* `recs` — `appl_db.get_all(appl_db.APPL_DB, key)` as a field dict;
* `portInternal` / `portChannelInternal` —
  `multi_asic.is_port_internal` / `multi_asic.is_port_channel_internal`
  for this namespace.

`multi_asic.is_multi_asic()` and the namespace list produced by
`masic.get_ns_list_based_on_options()` (both from modules outside the
sources given here) enter as the `isMultiAsic` and `nsList` parameters.
The `connected` field of the outcome records, in order, the namespaces
for which `connect_to_all_dbs_for_ns` has been called. -/

/-- Python `key.split(":")` restricted to the colon separator. -/
def splitColonAux : List Char → List Char → List String
  | [], acc => [String.mk acc.reverse]
  | c :: cs, acc =>
    if c = ':' then String.mk acc.reverse :: splitColonAux cs []
    else splitColonAux cs (c :: acc)

/-- Python `key.split(":")`. -/
def splitColon (s : String) : List String :=
  splitColonAux s.toList []

/-- Whether `pat` is an initial segment of the second list. -/
def listStartsWith : List Char → List Char → Bool
  | [], _ => true
  | _ :: _, [] => false
  | a :: as, b :: bs => a = b && listStartsWith as bs

/-- Whether `pat` occurs contiguously inside the second list. -/
def listHasSub (pat : List Char) : List Char → Bool
  | [] => pat.isEmpty
  | c :: cs => listStartsWith pat (c :: cs) || listHasSub pat cs

/-- Python `sub in s` on strings: substring containment. -/
def strContains (sub s : String) : Bool :=
  listHasSub sub.toList s.toList

/-- One namespace's read-only APPL_DB view, as consumed by `mpls`. -/
structure NsData where
  name : String
  keys : List String
  recs : String → List (String × String)
  portInternal : String → Bool
  portChannelInternal : String → Bool

/-- Body of `for key in keys` (src lines 365-394): skip address rows,
skip a non-matching row when a target interface is set (marking
`intf_found` on a match), apply the visibility filters unless the
display scope is `"all"`, then record the interface's MPLS state
(`"disable"` when the field is missing or disabled). -/
def processKey (ns : NsData) (intfname : Option String) (display : Option String)
    (st : List (String × String) × Bool) (key : String) :
    List (String × String) × Bool :=
  let tokens := splitColon key
  let ifname := tokens.getD 1 ""
  if tokens.length ≠ 2 then st
  else if intfname.isSome && !(ifname = intfname.getD "") then st
  else
    let found := st.2 || intfname.isSome
    if (!(display = some "all")) &&
        (strContains "Loopback" ifname ||
         ("Ethernet".isPrefixOf ifname && ns.portInternal ifname) ||
         ("PortChannel".isPrefixOf ifname && ns.portChannelInternal ifname)) then
      (st.1, found)
    else
      let entry := ns.recs key
      let value :=
        match dlookup entry "mpls" with
        | none => "disable"
        | some m => if m = "disable" then "disable" else m
      (setItem st.1 ifname value, found)

/-- The final output loop (src lines 403-409): rows over the natsorted
canonical interface names; in alias mode the displayed identity is the
alias, substituted after the sort. -/
def buildBody (mode : NamingMode) (port_tab : List (String × String))
    (data : List (String × String)) : List (List String) :=
  (natsorted (data.map (fun kv => kv.1))).map (fun n =>
    match mode with
    | NamingMode.alias => [name_to_alias port_tab n, (dlookup data n).getD ""]
    | NamingMode.native => [n, (dlookup data n).getD ""])

/-- Outcome of an `mpls` run: the command result plus the namespaces
connected to along the way. -/
structure MplsRes where
  result : CmdResult (List (List String))
  connected : List String
deriving DecidableEq, Repr

/-- The `for ns in ns_list` loop of `mpls` (src lines 356-398) plus the
post-loop not-found check and output: connect to the namespace, convert
the (possibly already converted) target interface name when one was
given — `ctx.fail` on conversion failure — then fold the key loop; when
the namespaces are exhausted, fail if a target was requested but never
found, otherwise emit the body. -/
def mplsLoop (mode : NamingMode) (port_tab : List (String × String))
    (display : Option String) :
    List NsData → Option String → List (String × String) → Bool →
    List String → MplsRes
  | [], intfname, data, found, conn =>
    match intfname, found with
    | some target, false =>
      ⟨CmdResult.usageFail ("interface " ++ target ++ " doesn`t exist"), conn⟩
    | _, _ => ⟨CmdResult.ok (buildBody mode port_tab data), conn⟩
  | ns :: rest, intfname, data, found, conn =>
    let conn1 := conn ++ [ns.name]
    match intfname with
    | none =>
      let st := ns.keys.foldl (processKey ns none display) (data, found)
      mplsLoop mode port_tab display rest none st.1 st.2 conn1
    | some target =>
      match try_convert_interfacename_from_alias mode port_tab target with
      | Except.error e => ⟨CmdResult.usageFail e, conn1⟩
      | Except.ok target1 =>
        let st := ns.keys.foldl (processKey ns (some target1) display) (data, found)
        mplsLoop mode port_tab display rest (some target1) st.1 st.2 conn1

/-- `displayAllowed` is the single-ASIC guard condition of src line 344:
the display option is `frontend`, `all`, or unset. -/
def displayAllowed (display : Option String) : Bool :=
  display == some "frontend" || display == some "all" || display == none

/-- The `mpls` command body (src lines 339-411): on a single-ASIC
platform an explicit display option other than `frontend`/`all` prints
an error and returns (before any namespace is connected); otherwise the
display scope is normalized (forced to `"all"` when a target interface
was given) and the namespace loop runs. -/
def mpls (isMultiAsic : Bool) (mode : NamingMode)
    (port_tab : List (String × String)) (nsList : List NsData)
    (interfacename : Option String) (display : Option String) : MplsRes :=
  if !isMultiAsic && !(displayAllowed display) then
    ⟨CmdResult.earlyReturn "Error: Invalid display option command for single asic", []⟩
  else
    let display1 := if isMultiAsic then display else none
    let display2 := if interfacename.isSome then some "all" else display1
    mplsLoop mode port_tab display2 nsList interfacename [] false []

/-! ## Lemmas about the dictionary operations -/

theorem dlookup_append (a b : List (String × β)) (k : String) :
    dlookup (a ++ b) k =
      match dlookup a k with
      | some v => some v
      | none => dlookup b k := by
  induction a with
  | nil => rfl
  | cons kv rest ih =>
    by_cases h : kv.1 = k
    · simp [dlookup, h]
    · simp [dlookup, h, ih]

theorem dlookup_filter_keyPred (p : String → Bool) (l : List (String × β)) (k : String) :
    dlookup (l.filter (fun kv => p kv.1)) k =
      if p k then dlookup l k else none := by
  induction l with
  | nil => simp [dlookup]
  | cons kv rest ih =>
    by_cases hk : kv.1 = k
    · subst hk
      by_cases hp : p kv.1
      · simp [List.filter, hp, dlookup, ih]
      · simp [List.filter, hp, dlookup, ih]
    · by_cases hp : p kv.1
      · simp [List.filter, hp, dlookup, hk, ih]
      · simp [List.filter, hp, dlookup, hk, ih]

theorem dlookup_dictUpdate_mapped (base upd : List (String × String)) (k : String) :
    dlookup (base.map (fun kv =>
        match dlookup upd kv.1 with
        | some v => (kv.1, v)
        | none => kv)) k =
      match dlookup base k with
      | none => none
      | some w =>
        match dlookup upd k with
        | some v => some v
        | none => some w := by
  induction base with
  | nil => rfl
  | cons kv rest ih =>
    by_cases hk : kv.1 = k
    · subst hk
      cases hu : dlookup upd kv.1 <;> simp [dlookup, hu, ih]
    · cases hu : dlookup upd kv.1 <;> simp [dlookup, hu, hk, ih]

/-- Lookup after `dictUpdate`: the updating dict's value wins on every
key it carries; other keys fall back to the base dict. -/
theorem dlookup_dictUpdate (base upd : List (String × String)) (k : String) :
    dlookup (dictUpdate base upd) k =
      match dlookup upd k with
      | some v => some v
      | none => dlookup base k := by
  unfold dictUpdate
  rw [dlookup_append, dlookup_dictUpdate_mapped]
  have hf : dlookup (upd.filter (fun kv => !(hasKey base kv.1))) k =
      if !(hasKey base k) then dlookup upd k else none :=
    dlookup_filter_keyPred (fun s => !(hasKey base s)) upd k
  cases hb : dlookup base k with
  | some w =>
    have : hasKey base k = true := by simp [hasKey, hb]
    cases hu : dlookup upd k <;> simp [hf, this]
  | none =>
    have : hasKey base k = false := by simp [hasKey, hb]
    cases hu : dlookup upd k <;> simp [hf, this, hu]

theorem dlookup_map_replace (d : List (String × String)) (key v k : String)
    (h : key ≠ k) :
    dlookup (d.map (fun kv => if kv.1 = key then (key, v) else kv)) k
      = dlookup d k := by
  induction d with
  | nil => rfl
  | cons kv rest ih =>
    by_cases hkey : kv.1 = key
    · have hk : kv.1 ≠ k := by rw [hkey]; exact h
      simp [dlookup, hkey, hk, h, ih]
    · by_cases hk : kv.1 = k
      · simp [dlookup, hkey, hk, ih, Ne.symm h]
      · simp [dlookup, hkey, hk, ih]

/-- `setItem` does not disturb lookups of other keys. -/
theorem dlookup_setItem_ne (d : List (String × String)) (key v k : String)
    (h : key ≠ k) :
    dlookup (setItem d key v) k = dlookup d k := by
  unfold setItem
  by_cases hk : hasKey d key
  · simp [hk, dlookup_map_replace d key v k h]
  · simp [hk, dlookup_append]
    cases hd : dlookup d k with
    | some w => simp
    | none => simp [dlookup, h]

/-- With distinct keys, lookup finds the value of any member pair. -/
theorem dlookup_eq_of_mem_nodup (l : List (String × β)) (k : String) (v : β)
    (hnd : (l.map (fun kv => kv.1)).Nodup) (hm : (k, v) ∈ l) :
    dlookup l k = some v := by
  induction l with
  | nil => cases hm
  | cons kv rest ih =>
    rcases List.mem_cons.mp hm with h | h
    · rw [← h]
      simp [dlookup]
    · rw [List.map_cons] at hnd
      have h1 : kv.1 ∉ rest.map (fun kv => kv.1) := (List.nodup_cons.mp hnd).1
      have hrest : (rest.map (fun kv => kv.1)).Nodup := (List.nodup_cons.mp hnd).2
      have hk : kv.1 ≠ k := by
        intro he
        apply h1
        rw [he]
        exact List.mem_map_of_mem (fun kv => kv.1) h
      simp [dlookup, hk, ih hrest h]

/-! ## Lemmas about the `breakout` port loop -/

/-- A processed pair keeps its port name. -/
theorem processPort_key (hwsku : List (String × List (String × String)))
    (cur : List (String × String)) (cp : String → String → List String)
    (ps : String → Option Nat) (pair out : String × List (String × String))
    (h : processPort hwsku cur cp ps pair = Except.ok out) :
    out.1 = pair.1 := by
  unfold processPort at h
  cases hc : dlookup cur pair.1 with
  | none => rw [hc] at h; cases h; rfl
  | some mode =>
    rw [hc] at h
    cases hs : dlookup hwsku pair.1 with
    | none => rw [hs] at h; cases h
    | some sku =>
      rw [hs] at h
      by_cases he : (cp pair.1 mode).isEmpty
      · simp [he] at h
      · simp [he] at h
        rw [← h]

/-- A port skipped by the `BREAKOUT_CFG` check passes through unchanged. -/
theorem processPort_skip (hwsku : List (String × List (String × String)))
    (cur : List (String × String)) (cp : String → String → List String)
    (ps : String → Option Nat) (pair : String × List (String × String))
    (h : dlookup cur pair.1 = none) :
    processPort hwsku cur cp ps pair = Except.ok pair := by
  unfold processPort
  rw [h]

/-- The port loop preserves the key sequence of `platform_dict`. -/
theorem processPorts_keys (hwsku : List (String × List (String × String)))
    (cur : List (String × String)) (cp : String → String → List String)
    (ps : String → Option Nat) :
    ∀ (l out : List (String × List (String × String))),
      processPorts hwsku cur cp ps l = Except.ok out →
      out.map (fun kv => kv.1) = l.map (fun kv => kv.1) := by
  intro l
  induction l with
  | nil => intro out h; cases h; rfl
  | cons p rest ih =>
    intro out h
    unfold processPorts at h
    cases hp : processPort hwsku cur cp ps p with
    | error e => rw [hp] at h; cases h
    | ok p' =>
      rw [hp] at h
      cases hr : processPorts hwsku cur cp ps rest with
      | error e => rw [hr] at h; cases h
      | ok rest' =>
        rw [hr] at h
        cases h
        simp [processPort_key hwsku cur cp ps p p' hp, ih rest' hr]

/-- A member pair whose port the `BREAKOUT_CFG` check skips is still a
member of the loop's output, unchanged. -/
theorem processPorts_skip_mem (hwsku : List (String × List (String × String)))
    (cur : List (String × String)) (cp : String → String → List String)
    (ps : String → Option Nat) (port : String) (entry : List (String × String)) :
    ∀ (l out : List (String × List (String × String))),
      (port, entry) ∈ l → dlookup cur port = none →
      processPorts hwsku cur cp ps l = Except.ok out →
      (port, entry) ∈ out := by
  intro l
  induction l with
  | nil => intro out hm; cases hm
  | cons p rest ih =>
    intro out hm hc h
    unfold processPorts at h
    cases hp : processPort hwsku cur cp ps p with
    | error e => rw [hp] at h; cases h
    | ok p' =>
      rw [hp] at h
      cases hr : processPorts hwsku cur cp ps rest with
      | error e => rw [hr] at h; cases h
      | ok rest' =>
        rw [hr] at h
        cases h
        rcases List.mem_cons.mp hm with he | he
        · rw [← he] at hp
          rw [processPort_skip hwsku cur cp ps (port, entry) hc] at hp
          cases hp
          exact List.mem_cons_self _ _
        · exact List.mem_cons_of_mem _ (ih rest' he hc hr)

/-- The port loop only succeeds when every retained port (one with a
`BREAKOUT_CFG` entry) also has an `hwsku.json` entry. -/
theorem processPorts_sku_present (hwsku : List (String × List (String × String)))
    (cur : List (String × String)) (cp : String → String → List String)
    (ps : String → Option Nat) (port : String) (entry : List (String × String)) :
    ∀ (l out : List (String × List (String × String))),
      processPorts hwsku cur cp ps l = Except.ok out →
      (port, entry) ∈ l → hasKey cur port = true →
      hasKey hwsku port = true := by
  intro l
  induction l with
  | nil => intro out _ hm; cases hm
  | cons p rest ih =>
    intro out h hm hc
    unfold processPorts at h
    cases hp : processPort hwsku cur cp ps p with
    | error e => rw [hp] at h; cases h
    | ok p' =>
      rw [hp] at h
      cases hr : processPorts hwsku cur cp ps rest with
      | error e => rw [hr] at h; cases h
      | ok rest' =>
        rcases List.mem_cons.mp hm with he | he
        · rw [← he] at hp
          unfold processPort at hp
          cases hcur : dlookup cur port with
          | none => simp [hasKey, hcur] at hc
          | some mode =>
            simp only [hcur] at hp
            cases hsku : dlookup hwsku port with
            | none => simp only [hsku] at hp; cases hp
            | some sku => simp [hasKey, hsku]
        · exact ih rest' hr he hc

/-! ## Claim theorems -/

/-- C1 counterexample: `Ethernet0` is present in the platform capability
data but absent from the persisted `BREAKOUT_CFG` table, yet the
breakout summary still lists it (with its raw platform entry) — it is
not excluded from the final output mapping, contrary to the claim. -/
theorem C1_counterexample :
    breakout [("Ethernet0", [("lanes", "0,1,2,3")])]
      [("Ethernet0", [])] [("Ethernet8", "1x100G")]
      (fun _ _ => ["Ethernet0"]) (fun _ => none)
    = Except.ok [("Ethernet0", [("lanes", "0,1,2,3")])] := rfl

/-- C1 (amended): a parent port present in the platform capability data
but absent from the persisted `BREAKOUT_CFG` table is not excluded from
the breakout output; the enrichment loop skips it, so it appears in the
final output mapping with its original, unenriched platform entry (no
current-mode or child fields). -/
theorem C1_amended_unretained_port_kept :
    ∀ (platform_dict hwsku_dict : List (String × List (String × String)))
      (cur_brkout_tbl : List (String × String))
      (cp : String → String → List String) (ps : String → Option Nat)
      (out : List (String × List (String × String)))
      (port : String) (entry : List (String × String)),
      (platform_dict.map (fun kv => kv.1)).Nodup →
      (port, entry) ∈ platform_dict →
      dlookup cur_brkout_tbl port = none →
      breakout platform_dict hwsku_dict cur_brkout_tbl cp ps = Except.ok out →
      (port, entry) ∈ out := by
  intro pd hd cur cp ps out port entry hnd hm hc hb
  unfold breakout at hb
  by_cases hempty : (pd.isEmpty || hd.isEmpty) = true
  · rw [if_pos hempty] at hb; cases hb
  · rw [if_neg hempty] at hb
    cases hpp : processPorts hd cur cp ps pd with
    | error e => rw [hpp] at hb; cases hb
    | ok l' =>
      rw [hpp] at hb
      cases hb
      have hmem : (port, entry) ∈ l' :=
        processPorts_skip_mem hd cur cp ps port entry pd l' hm hc hpp
      have hkeys : l'.map (fun kv => kv.1) = pd.map (fun kv => kv.1) :=
        processPorts_keys hd cur cp ps pd l' hpp
      have hnd' : (l'.map (fun kv => kv.1)).Nodup := by rw [hkeys]; exact hnd
      have hport : port ∈ l'.map (fun kv => kv.1) :=
        List.mem_map_of_mem (fun kv => kv.1) hmem
      have hsorted : port ∈ natsorted (l'.map (fun kv => kv.1)) :=
        (mem_natsorted port _).mpr hport
      have hlk : dlookup l' port = some entry :=
        dlookup_eq_of_mem_nodup l' port entry hnd' hmem
      unfold natsortedDict
      apply List.mem_map.mpr
      exact ⟨port, hsorted, by simp [hlk]⟩

/-- C1 witness: a concrete run of the amended theorem — the unretained
port's original pair is in the output. -/
theorem C1_witness :
    ("Ethernet0", ([("lanes", "0")] : List (String × String))) ∈
      [("Ethernet0", ([("lanes", "0")] : List (String × String)))] :=
  C1_amended_unretained_port_kept
    [("Ethernet0", [("lanes", "0")])] [("Ethernet4", [])] []
    (fun _ _ => ["Ethernet0"]) (fun _ => none)
    [("Ethernet0", [("lanes", "0")])] "Ethernet0" [("lanes", "0")]
    (by decide) (by decide) rfl rfl

/-- C2: the not-found determination is indeed made only after every
namespace is queried — in native mode a target that exists only in the
second of two namespaces yields exactly its row, with no spurious
failure (first conjunct).  But the claim that the operation succeeds
whenever the target exists in some namespace is broken by the code in
alias mode: the in-loop re-conversion of the already-converted
canonical name fails on the second namespace iteration with a
usage-level error, even though the interface exists there (second
conjunct, the failing input). -/
theorem C2_alias_mode_reconversion_bug :
    mpls true NamingMode.native [("Ethernet0", "etp1")]
      [⟨"asic0", [], fun _ => [], fun _ => false, fun _ => false⟩,
       ⟨"asic1", ["INTF_TABLE:Ethernet0"], fun _ => [("mpls", "enable")],
        fun _ => false, fun _ => false⟩]
      (some "Ethernet0") none =
      ⟨CmdResult.ok [["Ethernet0", "enable"]], ["asic0", "asic1"]⟩ ∧
    mpls true NamingMode.alias [("Ethernet0", "etp1")]
      [⟨"asic0", [], fun _ => [], fun _ => false, fun _ => false⟩,
       ⟨"asic1", ["INTF_TABLE:Ethernet0"], fun _ => [("mpls", "enable")],
        fun _ => false, fun _ => false⟩]
      (some "etp1") none =
      ⟨CmdResult.usageFail "cannot find interface name for alias Ethernet0",
       ["asic0", "asic1"]⟩ :=
  ⟨rfl, rfl⟩

/-- C3: for every breakout config the derived child-name list and
child-speed list have equal length; the name list is exactly the
children whose live speed is present, so a speedless child is omitted
from both lists together and a child with a speed contributes exactly
one entry to each. -/
theorem C3_child_lists_equal_length :
    ∀ (ports : List String) (port_speed : String → Option Nat),
      (childLists ports port_speed).1.length =
        (childLists ports port_speed).2.length ∧
      (childLists ports port_speed).1 =
        ports.filter (fun p => (port_speed p).isSome) := by
  intro ports speed
  induction ports with
  | nil => exact ⟨rfl, rfl⟩
  | cons p ps ih =>
    cases hs : speed p with
    | some s =>
      constructor
      · simp [childLists, hs, ih.1]
      · simp [childLists, hs, List.filter_cons, ih.2]
    | none =>
      constructor
      · simp [childLists, hs, ih.1]
      · simp [childLists, hs, List.filter_cons, ih.2]

/-- C4: in alias mode, a queried string matching no port's alias makes
the conversion fail the operation with the unknown-alias error; it is
never passed through as a literal name. -/
theorem C4_unknown_alias_fails :
    ∀ (port_tab : List (String × String)) (a : String),
      (∀ kv ∈ port_tab, kv.2 ≠ a) →
      try_convert_interfacename_from_alias NamingMode.alias port_tab a =
        Except.error ("cannot find interface name for alias " ++ a) := by
  intro pt a h
  have hf : pt.find? (fun kv => kv.2 = a) = none := by
    apply List.find?_eq_none.mpr
    intro kv hm
    simp [h kv hm]
  unfold try_convert_interfacename_from_alias alias_to_name
  rw [hf]
  simp

/-- C4 witness: a concrete unmatched alias fails the conversion. -/
theorem C4_witness :
    try_convert_interfacename_from_alias NamingMode.alias
      [("Ethernet0", "etp1")] "etp9" =
      Except.error ("cannot find interface name for alias " ++ "etp9") :=
  C4_unknown_alias_fails [("Ethernet0", "etp1")] "etp9" (by decide)

/-- C5 counterexample: on a single-ASIC platform an explicit display
option other than `frontend`/`all` makes `mpls` print an error line and
return normally — the exit status is 0, not the claimed non-zero, and
it is not a usage-level (`ctx.fail`) error. -/
theorem C5_counterexample :
    mpls false NamingMode.native [] [] none (some "peer") =
      ⟨CmdResult.earlyReturn
        "Error: Invalid display option command for single asic", []⟩ ∧
    exitCode (mpls false NamingMode.native [] [] none (some "peer")).result
      = 0 :=
  ⟨rfl, rfl⟩

/-- C5 (amended): on a single-ASIC platform, a display scope other than
frontend, all, or unset makes `mpls` print the error message and return
before any namespace connection is attempted — but with exit status
zero, via a plain print-and-return rather than a usage error. -/
theorem C5_amended_invalid_display_prints_and_returns :
    ∀ (mode : NamingMode) (port_tab : List (String × String))
      (nsList : List NsData) (interfacename : Option String)
      (display : Option String),
      displayAllowed display = false →
      mpls false mode port_tab nsList interfacename display =
        ⟨CmdResult.earlyReturn
          "Error: Invalid display option command for single asic", []⟩ ∧
      exitCode (mpls false mode port_tab nsList interfacename display).result
        = 0 := by
  intro mode pt ns intf disp h
  have h1 : mpls false mode pt ns intf disp =
      ⟨CmdResult.earlyReturn
        "Error: Invalid display option command for single asic", []⟩ := by
    unfold mpls
    simp [h]
  exact ⟨h1, by rw [h1]; rfl⟩

/-- C5 witness: a concrete single-ASIC run with an incompatible display
option prints and returns with exit status 0 and no connections. -/
theorem C5_witness :
    mpls false NamingMode.alias [] [] none (some "asic0") =
      ⟨CmdResult.earlyReturn
        "Error: Invalid display option command for single asic", []⟩ ∧
    exitCode (mpls false NamingMode.alias [] [] none (some "asic0")).result
      = 0 :=
  C5_amended_invalid_display_prints_and_returns
    NamingMode.alias [] [] none (some "asic0") (by decide)

/-- C6: in the breakout merge, on any key present in both the platform
entry and the SKU entry the SKU-sourced value overwrites the
platform-sourced one; keys the SKU entry does not carry keep the
platform value; and for a retained port the processed output entry
agrees with that merge on every key other than the three fields the
loop adds afterwards. -/
theorem C6_sku_overwrites_platform :
    (∀ (base upd : List (String × String)) (k : String),
        hasKey base k = true → hasKey upd k = true →
        dlookup (dictUpdate base upd) k = dlookup upd k) ∧
    (∀ (base upd : List (String × String)) (k : String),
        hasKey upd k = false →
        dlookup (dictUpdate base upd) k = dlookup base k) ∧
    (∀ (hwsku : List (String × List (String × String)))
        (cur : List (String × String)) (cp : String → String → List String)
        (ps : String → Option Nat) (port : String)
        (entry sku : List (String × String)) (mode : String)
        (out : String × List (String × String)),
        dlookup cur port = some mode →
        dlookup hwsku port = some sku →
        processPort hwsku cur cp ps (port, entry) = Except.ok out →
        ∀ k, k ≠ "Current Breakout Mode" → k ≠ "child ports" →
          k ≠ "child port speeds" →
          dlookup out.2 k = dlookup (dictUpdate entry sku) k) := by
  refine ⟨?_, ?_, ?_⟩
  · intro base upd k _ hu
    rw [dlookup_dictUpdate]
    cases h : dlookup upd k with
    | none => simp [hasKey, h] at hu
    | some v => simp
  · intro base upd k hu
    rw [dlookup_dictUpdate]
    cases h : dlookup upd k with
    | none => simp
    | some v => simp [hasKey, h] at hu
  · intro hwsku cur cp ps port entry sku mode out hcur hsku hp k hk1 hk2 hk3
    unfold processPort at hp
    simp only [hcur, hsku] at hp
    by_cases he : (cp port mode).isEmpty = true
    · simp [he] at hp
    · simp [he] at hp
      rw [← hp]
      rw [dlookup_setItem_ne _ _ _ _ (Ne.symm hk3),
        dlookup_setItem_ne _ _ _ _ (Ne.symm hk2),
        dlookup_setItem_ne _ _ _ _ (Ne.symm hk1)]

/-- C6 witness: concrete merges — the SKU value wins on the shared key
`speed`, the platform-only key `lanes` is kept, and a retained port's
processed entry shows the SKU-overwritten value. -/
theorem C6_witness :
    dlookup (dictUpdate [("speed", "100000"), ("lanes", "0,1")]
      [("speed", "25000")]) "speed" = some "25000" ∧
    dlookup (dictUpdate [("speed", "100000"), ("lanes", "0,1")]
      [("speed", "25000")]) "lanes" = some "0,1" ∧
    dlookup ("Ethernet0", [("speed", "100000"), ("default_brkout_mode", "1x100G"),
      ("Current Breakout Mode", "4x25G"), ("child ports", "Ethernet0"),
      ("child port speeds", "25G")]).2 "speed" =
      dlookup (dictUpdate [("speed", "100000")]
        [("default_brkout_mode", "1x100G")]) "speed" :=
  ⟨(C6_sku_overwrites_platform.1 [("speed", "100000"), ("lanes", "0,1")]
      [("speed", "25000")] "speed" rfl rfl).trans rfl,
   (C6_sku_overwrites_platform.2.1 [("speed", "100000"), ("lanes", "0,1")]
      [("speed", "25000")] "lanes" rfl).trans rfl,
   C6_sku_overwrites_platform.2.2 [("Ethernet0", [("default_brkout_mode", "1x100G")])]
      [("Ethernet0", "4x25G")] (fun _ _ => ["Ethernet0"]) (fun _ => some 25000)
      "Ethernet0" [("speed", "100000")] [("default_brkout_mode", "1x100G")] "4x25G"
      ("Ethernet0", [("speed", "100000"), ("default_brkout_mode", "1x100G"),
        ("Current Breakout Mode", "4x25G"), ("child ports", "Ethernet0"),
        ("child port speeds", "25G")])
      rfl rfl rfl "speed" (by decide) (by decide) (by decide)⟩

/-- C7 counterexample: in alias mode the rows come out ordered by the
canonical names, not by the displayed aliases — with aliases `z` (for
`Ethernet0`) and `a` (for `Ethernet4`) the first row's display identity
`z` is naturally greater than the second row's `a`, so the output is
not ascending in the display identity. -/
theorem C7_counterexample :
    mpls true NamingMode.alias [("Ethernet0", "z"), ("Ethernet4", "a")]
      [⟨"asic0", ["INTF_TABLE:Ethernet0", "INTF_TABLE:Ethernet4"],
        fun _ => [], fun _ => false, fun _ => false⟩]
      none (some "all") =
      ⟨CmdResult.ok [["z", "disable"], ["a", "disable"]], ["asic0"]⟩ ∧
    natLe "z" "a" = false :=
  ⟨rfl, rfl⟩

/-- C7 (amended): the mpls output rows follow the natural ascending
sort of the canonical interface names in both naming modes; in alias
mode the alias is substituted after the sort, so rows are ordered by
canonical name, not by the displayed alias. -/
theorem C7_amended_rows_sorted_by_name :
    ∀ (mode : NamingMode) (port_tab data : List (String × String)),
      List.Chain' (fun a b => natLe a b = true)
        (natsorted (data.map (fun kv => kv.1))) ∧
      buildBody mode port_tab data =
        (natsorted (data.map (fun kv => kv.1))).map (fun n =>
          match mode with
          | NamingMode.alias => [name_to_alias port_tab n, (dlookup data n).getD ""]
          | NamingMode.native => [n, (dlookup data n).getD ""]) := by
  intro mode pt data
  refine ⟨chain'_natsorted _, ?_⟩
  cases mode <;> rfl

/-- C8: the speeds list is the formatted speed of each retained child —
the whole-gigabit quotient of the raw megabit value with suffix `G` —
and raw 25000 formats as `25G`. -/
theorem C8_speed_formatting :
    ∀ (ports : List String) (port_speed : String → Option Nat),
      (childLists ports port_speed).2 =
        ((childLists ports port_speed).1).map
          (fun p => formatSpeedG ((port_speed p).getD 0)) ∧
      formatSpeedG 25000 = "25G" := by
  intro ports speed
  refine ⟨?_, rfl⟩
  induction ports with
  | nil => rfl
  | cons p ps ih =>
    cases hs : speed p with
    | some s => simp [childLists, hs, ih]
    | none => simp [childLists, hs, ih]

/-- C9: the breakout summary runs to completion only when every parent
port retained by the `BREAKOUT_CFG` check also has an `hwsku.json`
entry (first conjunct); at a concrete input where the retained port is
missing from the SKU data, the unguarded lookup raises the uncaught
KeyError (second conjunct). -/
theorem C9_success_requires_sku_entries :
    (∀ (platform_dict hwsku_dict : List (String × List (String × String)))
        (cur_brkout_tbl : List (String × String))
        (cp : String → String → List String) (ps : String → Option Nat)
        (out : List (String × List (String × String))),
        breakout platform_dict hwsku_dict cur_brkout_tbl cp ps = Except.ok out →
        ∀ (port : String) (entry : List (String × String)),
          (port, entry) ∈ platform_dict → hasKey cur_brkout_tbl port = true →
          hasKey hwsku_dict port = true) ∧
    breakout [("Ethernet0", [("lanes", "0,1,2,3")])] [("Ethernet4", [])]
      [("Ethernet0", "4x25G")] (fun _ _ => ["Ethernet0"]) (fun _ => none) =
      Except.error (BrkoutErr.keyError "Ethernet0") := by
  constructor
  · intro pd hd cur cp ps out hb port entry hm hc
    unfold breakout at hb
    by_cases hempty : (pd.isEmpty || hd.isEmpty) = true
    · rw [if_pos hempty] at hb; cases hb
    · rw [if_neg hempty] at hb
      cases hpp : processPorts hd cur cp ps pd with
      | error e => rw [hpp] at hb; cases hb
      | ok l' => exact processPorts_sku_present hd cur cp ps port entry pd l' hpp hm hc
  · rfl

/-- C9 witness: a concrete successful breakout run, from which the
theorem yields that the retained port has an SKU entry. -/
theorem C9_witness :
    hasKey [("Ethernet0", ([] : List (String × String)))] "Ethernet0" = true :=
  C9_success_requires_sku_entries.1
    [("Ethernet0", [("lanes", "0")])] [("Ethernet0", [])]
    [("Ethernet0", "4x25G")] (fun _ _ => ["Ethernet0"]) (fun _ => none)
    [("Ethernet0", [("lanes", "0"), ("Current Breakout Mode", "4x25G"),
      ("child ports", ""), ("child port speeds", "")])]
    rfl "Ethernet0" [("lanes", "0")] (by decide) rfl

/-- C10: querying the current breakout mode of an interface with no
`BREAKOUT_CFG` entry succeeds (exit status zero) with exactly one row
pairing the name with the sentinel `Not Available`. -/
theorem C10_missing_entry_not_available :
    ∀ (cur_brkout_tbl : List (String × String)) (intf : String),
      dlookup cur_brkout_tbl intf = none →
      currrent_mode cur_brkout_tbl (some intf) =
        CmdResult.ok [[intf, "Not Available"]] ∧
      exitCode (currrent_mode cur_brkout_tbl (some intf)) = 0 := by
  intro tbl intf h
  have h1 : currrent_mode tbl (some intf) =
      CmdResult.ok [[intf, "Not Available"]] := by
    simp [currrent_mode, h]
  exact ⟨h1, by rw [h1]; rfl⟩

/-- C10 witness: a concrete interface missing from the table yields the
`Not Available` row with exit status zero. -/
theorem C10_witness :
    currrent_mode [("Ethernet0", "4x25G")] (some "Ethernet4") =
      CmdResult.ok [["Ethernet4", "Not Available"]] ∧
    exitCode (currrent_mode [("Ethernet0", "4x25G")] (some "Ethernet4")) = 0 :=
  C10_missing_entry_not_available [("Ethernet0", "4x25G")] "Ethernet4" rfl

end SonicShow
